import Mathlib

/-!
Shallow embedding of the cars-scanner diagnostic tool (src/main.rs).

Rust `String` is modelled as `List Char` (`RStr`), so substring search,
splitting, trimming and case folding are ordinary list functions.
`HashMap<String, ErrorCode>` is modelled as a key-unique association list:
`insert` removes any existing binding for the key and appends the new one;
iteration order of values is irrelevant to every property proved here.
`to_lowercase` is modelled per-character with `Char.toLower` and `trim`
with `Char.isWhitespace`, which agree with the Rust behaviour on ASCII data.
-/

set_option autoImplicit false

namespace CarsScanner

/-- Rust `String`, modelled as a list of characters. -/
abbrev RStr := List Char

/-- Convert a Lean string literal into the model string type. -/
def str (s : String) : RStr := s.toList

/-- The newline character emitted by the renderers. -/
def nlc : Char := Char.ofNat 10

/-- The `|` sub-delimiter of the multi-valued fields. -/
def pipec : Char := Char.ofNat 124

/-- The ASCII apostrophe used in the HTML fragment. -/
def apos : Char := Char.ofNat 39

/-- Rust `str::starts_with` on the model: does the second list start with the first? -/
def leadsWith : RStr → RStr → Bool
  | [], _ => true
  | _ :: _, [] => false
  | a :: as, b :: bs => a == b && leadsWith as bs

/-- Rust `str::contains` on the model: does the needle occur as a contiguous
substring of the haystack? -/
def occursIn (n : RStr) : RStr → Bool
  | [] => n.isEmpty
  | b :: bs => leadsWith n (b :: bs) || occursIn n bs

/-- Rust `str::to_lowercase`, modelled per character. -/
def lowerStr (s : RStr) : RStr := s.map Char.toLower

/-- Rust `str::trim`: drop whitespace from both ends. -/
def trimChars (s : RStr) : RStr :=
  ((s.dropWhile Char.isWhitespace).reverse.dropWhile Char.isWhitespace).reverse

/-- Rust `str::split(sep)`: split on every occurrence of `sep`; the empty
string yields one empty segment, a trailing separator yields a trailing
empty segment. -/
def splitSep (sep : Char) : RStr → List RStr
  | [] => [[]]
  | c :: rest =>
    if c = sep then [] :: splitSep sep rest
    else
      match splitSep sep rest with
      | [] => [[c]]
      | h :: t => (c :: h) :: t

/-- The record type for one diagnostic entry (struct `ErrorCode` in src/main.rs). -/
structure ErrorCode where
  code : RStr
  description : RStr
  severity : RStr
  system : RStr
  possible_causes : RStr
  recommended_actions : RStr
deriving DecidableEq, Repr

namespace ErrorCode

/-- One bulleted line of the text rendering: `"  - {seg.trim()}\n"`. -/
def textBullet (seg : RStr) : RStr := str "  - " ++ trimChars seg ++ [nlc]

/-- The loop in `to_text` over a `|`-delimited field: one bulleted line per segment. -/
def textBullets (fld : RStr) : RStr :=
  ((splitSep pipec fld).map textBullet).flatten

/-- `ErrorCode::to_text` (src/main.rs lines 23-41): the plain-text rendering,
built exactly as the sequence of `push_str` calls in the source. -/
def to_text (r : ErrorCode) : RStr :=
  str "Error Code: " ++ r.code ++ [nlc] ++
  str "Description: " ++ r.description ++ [nlc] ++
  str "Severity: " ++ r.severity ++ [nlc] ++
  str "System: " ++ r.system ++ [nlc] ++
  [nlc] ++ str "Possible Causes:" ++ [nlc] ++
  textBullets r.possible_causes ++
  [nlc] ++ str "Recommended Actions:" ++ [nlc] ++
  textBullets r.recommended_actions

/-- One list item of the HTML rendering: `"<li>{seg.trim()}</li>\n"`. -/
def htmlItem (seg : RStr) : RStr := str "<li>" ++ trimChars seg ++ str "</li>" ++ [nlc]

/-- The loop in `to_html` over a `|`-delimited field: one list item per segment. -/
def htmlItems (fld : RStr) : RStr :=
  ((splitSep pipec fld).map htmlItem).flatten

/-- `ErrorCode::to_html` (src/main.rs lines 43-65): the HTML fragment,
built exactly as the sequence of `push_str` calls in the source. -/
def to_html (r : ErrorCode) : RStr :=
  str "<div class=" ++ [apos] ++ str "error-code" ++ [apos] ++ str ">" ++ [nlc] ++
  str "<h2>Error Code: " ++ r.code ++ str "</h2>" ++ [nlc] ++
  str "<p><strong>Description:</strong> " ++ r.description ++ str "</p>" ++ [nlc] ++
  str "<p><strong>Severity:</strong> " ++ r.severity ++ str "</p>" ++ [nlc] ++
  str "<p><strong>System:</strong> " ++ r.system ++ str "</p>" ++ [nlc] ++
  str "<h3>Possible Causes:</h3>" ++ [nlc] ++ str "<ul>" ++ [nlc] ++
  htmlItems r.possible_causes ++
  str "</ul>" ++ [nlc] ++
  str "<h3>Recommended Actions:</h3>" ++ [nlc] ++ str "<ul>" ++ [nlc] ++
  htmlItems r.recommended_actions ++
  str "</ul>" ++ [nlc] ++
  str "</div>" ++ [nlc]

end ErrorCode

/-- The diagnostics database: `HashMap<String, ErrorCode>` modelled as a
key-unique association list from code to record. -/
abbrev DB := List (RStr × ErrorCode)

/-- `DiagnosticsDatabase::new`: the empty index. -/
def dbEmpty : DB := []

/-- `HashMap::insert(record.code.clone(), record)`: replace any existing
binding for the key (last write wins) and add the new binding. -/
def insertRecord (m : DB) (r : ErrorCode) : DB :=
  m.filter (fun p => decide (p.1 ≠ r.code)) ++ [(r.code, r)]

/-- `self.errors.values()`: the stored records. -/
def dbValues (m : DB) : List ErrorCode := m.map (·.2)

/-- `lookup_error` (src/main.rs lines 98-100): exact `HashMap::get` on the code key. -/
def lookup_error (m : DB) (code : RStr) : Option ErrorCode :=
  (m.find? (fun p => decide (p.1 = code))).map (·.2)

/-- `list_errors_by_system` (src/main.rs lines 103-107): case-insensitive
equality filter on the `system` field. -/
def list_errors_by_system (m : DB) (system : RStr) : List ErrorCode :=
  (dbValues m).filter (fun e => decide (lowerStr e.system = lowerStr system))

/-- `list_errors_by_severity` (src/main.rs lines 110-114): case-insensitive
equality filter on the `severity` field. -/
def list_errors_by_severity (m : DB) (severity : RStr) : List ErrorCode :=
  (dbValues m).filter (fun e => decide (lowerStr e.severity = lowerStr severity))

/-- `search_by_keyword` (src/main.rs lines 117-126): lowercase the keyword and
keep every record whose lowercased `description`, raw `possible_causes` or raw
`recommended_actions` contains it as a substring. -/
def search_by_keyword (m : DB) (kw : RStr) : List ErrorCode :=
  (dbValues m).filter (fun e =>
    occursIn (lowerStr kw) (lowerStr e.description) ||
    occursIn (lowerStr kw) (lowerStr e.possible_causes) ||
    occursIn (lowerStr kw) (lowerStr e.recommended_actions))

/-- Insert a list of already-deserialized records in order (the successful
path of the load loop). -/
def loadRecords (m : DB) (rs : List ErrorCode) : DB :=
  rs.foldl insertRecord m

/-- Deserialization of one CSV data row against the header, as serde's
named-column binding behaves for a struct of six string fields: the row must
have as many fields as the header, and each struct field name must appear in
the header; the value is taken from the row at the header's position. -/
def getField (hdr row : List RStr) (name : String) : Except Unit RStr :=
  match hdr.findIdx? (fun h => decide (h = str name)) with
  | none => .error ()
  | some i =>
    match row.get? i with
    | none => .error ()
    | some v => .ok v

/-- Deserialize one data row into an `ErrorCode`; any missing column or a row
of the wrong width is a deserialization error. -/
def deserializeRow (hdr row : List RStr) : Except Unit ErrorCode :=
  if row.length = hdr.length then do
    let c ← getField hdr row "code"
    let d ← getField hdr row "description"
    let sv ← getField hdr row "severity"
    let sy ← getField hdr row "system"
    let pc ← getField hdr row "possible_causes"
    let ra ← getField hdr row "recommended_actions"
    pure ⟨c, d, sv, sy, pc, ra⟩
  else .error ()

/-- Deserialize a whole list of rows, failing on the first bad row. -/
def deserializeRows (hdr : List RStr) : List (List RStr) → Except Unit (List ErrorCode)
  | [] => .ok []
  | row :: rest =>
    match deserializeRow hdr row with
    | .error e => .error e
    | .ok r =>
      match deserializeRows hdr rest with
      | .error e => .error e
      | .ok rs => .ok (r :: rs)

/-- The `for result in reader.deserialize()` loop of `load_from_csv`:
deserialize each row and insert it at once; on a bad row stop with an error,
keeping the insertions already made (the `?` operator returns early but the
map was mutated in place). Returns the loop's result together with the final
map state. -/
def loadLoop (m : DB) (hdr : List RStr) : List (List RStr) → Except Unit Unit × DB
  | [] => (.ok (), m)
  | row :: rest =>
    match deserializeRow hdr row with
    | .error e => (.error e, m)
    | .ok r => loadLoop (insertRecord m r) hdr rest

/-- The observable outcome of `load_from_csv`: the returned `Result<(), _>`,
the map state afterwards, and the lines printed to stdout. -/
structure LoadOutcome where
  res : Except Unit Unit
  db : DB
  printed : List RStr
deriving Repr

/-- The success message printed by `load_from_csv`:
`"Loaded {} error codes from database"` with `self.errors.len()`. -/
def loadedMsg (n : Nat) : RStr :=
  str "Loaded " ++ (Nat.repr n).toList ++ str " error codes from database"

/-- `load_from_csv` (src/main.rs lines 82-95) after the file has been read:
run the deserialize-and-insert loop; on success print the count of entries in
the map and return `Ok(())`; on a row error return the error with the map in
its partially-loaded state and nothing printed. -/
def load_from_csv (m : DB) (hdr : List RStr) (rows : List (List RStr)) : LoadOutcome :=
  match loadLoop m hdr rows with
  | (.ok _, m2) => ⟨.ok (), m2, [loadedMsg m2.length]⟩
  | (.error e, m2) => ⟨.error e, m2, []⟩

/-- The last record in the list whose `code` equals `c`, if any. -/
def findLastCode (rs : List ErrorCode) (c : RStr) : Option ErrorCode :=
  rs.reverse.find? (fun r => decide (r.code = c))

/-! ### Concrete fixtures used for counterexamples and witnesses -/

/-- The CSV header row naming the six `ErrorCode` fields. -/
def hdr6 : List RStr :=
  [str "code", str "description", str "severity", str "system",
    str "possible_causes", str "recommended_actions"]

/-- A well-formed data row. -/
def rowGood : List RStr :=
  [str "P0001", str "fuel trim fault", str "Low", str "Engine", str "a|b", str "act"]

/-- A second well-formed data row with a distinct code. -/
def rowGood2 : List RStr :=
  [str "P0003", str "injector open", str "High", str "Fuel", str "c", str "replace"]

/-- A malformed data row: only one field against a six-field header. -/
def rowBad : List RStr := [str "P0002"]

/-- The record deserialized from `rowGood`. -/
def recGood : ErrorCode :=
  ⟨str "P0001", str "fuel trim fault", str "Low", str "Engine", str "a|b", str "act"⟩

/-- The record deserialized from `rowGood2`. -/
def recGood2 : ErrorCode :=
  ⟨str "P0003", str "injector open", str "High", str "Fuel", str "c", str "replace"⟩

/-- The worked example record from the specification's testable properties. -/
def recTurbo : ErrorCode :=
  ⟨str "P0299", str "turbo lag detected", str "High", str "Engine",
    str "worn seal|low boost", str "replace seal"⟩

/-- A one-record index holding `recTurbo`. -/
def dbTurbo : DB := loadRecords dbEmpty [recTurbo]

/-- A record in which the string "p9" occurs (case-insensitively) only in the
`code` and `system` fields, which keyword search does not inspect. -/
def recOnly : ErrorCode :=
  ⟨str "P9ABC", str "engine misfire", str "Low", str "P9 module",
    str "bad wiring", str "fix wiring"⟩

/-- A one-record index holding `recOnly`. -/
def dbOnly : DB := loadRecords dbEmpty [recOnly]

/-- A record with code "P0101", for the case-sensitivity of lookup. -/
def recP0101 : ErrorCode :=
  ⟨str "P0101", str "MAF sensor range", str "Medium", str "Engine",
    str "dirty sensor|vacuum leak", str "clean sensor|check hoses"⟩

/-- A one-record index holding `recP0101`. -/
def dbP0101 : DB := loadRecords dbEmpty [recP0101]

/-- First of two records sharing the code "P0300". -/
def recDupA : ErrorCode :=
  ⟨str "P0300", str "first version", str "Low", str "Engine", str "c1", str "a1"⟩

/-- Second of two records sharing the code "P0300". -/
def recDupB : ErrorCode :=
  ⟨str "P0300", str "second version", str "High", str "Ignition", str "c2", str "a2"⟩

/-- A source containing the two duplicate-code records in order. -/
def recsDup : List ErrorCode := [recDupA, recDupB]

/-- A record whose multi-valued fields exercise the delimiter rendering,
including a trailing delimiter producing an empty segment. -/
def rEx : ErrorCode :=
  ⟨str "P1", str "d", str "Low", str "Engine", str "a|b|c", str "x|"⟩

/-! ### Lemmas about the string model -/

theorem occursIn_nil (h : RStr) : occursIn [] h = true := by
  induction h with
  | nil => rfl
  | cons b bs ih => simp [occursIn, leadsWith]

theorem leadsWith_self_append (s t : RStr) : leadsWith s (s ++ t) = true := by
  induction s with
  | nil => rfl
  | cons a as ih => simp [leadsWith, ih]

theorem occursIn_self_append (s t : RStr) : occursIn s (s ++ t) = true := by
  cases s with
  | nil => simpa using occursIn_nil t
  | cons a as =>
    have h := leadsWith_self_append (a :: as) t
    simp only [List.cons_append] at h
    simp [occursIn, h]

theorem occursIn_append_left (n t x : RStr) (h : occursIn n t = true) :
    occursIn n (x ++ t) = true := by
  induction x with
  | nil => simpa using h
  | cons a as ih =>
    show (leadsWith n (a :: (as ++ t)) || occursIn n (as ++ t)) = true
    rw [ih]
    simp

theorem occursIn_self (s : RStr) : occursIn s s = true := by
  have h := occursIn_self_append s []
  simpa using h

theorem leadsWith_append_right (n : RStr) :
    ∀ (l t : RStr), leadsWith n l = true → leadsWith n (l ++ t) = true := by
  induction n with
  | nil => intro l t _; rfl
  | cons a as ih =>
    intro l t h
    cases l with
    | nil => simp [leadsWith] at h
    | cons b bs =>
      simp only [List.cons_append, leadsWith, Bool.and_eq_true, beq_iff_eq] at h ⊢
      exact ⟨h.1, ih bs t h.2⟩

theorem occursIn_append_right (n : RStr) :
    ∀ (x t : RStr), occursIn n x = true → occursIn n (x ++ t) = true := by
  intro x
  induction x with
  | nil =>
    intro t h
    cases n with
    | nil => exact occursIn_nil t
    | cons a as => simp [occursIn, List.isEmpty] at h
  | cons b bs ih =>
    intro t h
    simp only [occursIn, Bool.or_eq_true] at h
    rcases h with h1 | h2
    · simp only [List.cons_append, occursIn, Bool.or_eq_true]
      exact Or.inl (leadsWith_append_right n (b :: bs) t h1)
    · simp only [List.cons_append, occursIn, Bool.or_eq_true]
      exact Or.inr (ih t h2)

theorem splitSep_ne_nil (sep : Char) (l : RStr) : splitSep sep l ≠ [] := by
  cases l with
  | nil => simp [splitSep]
  | cons c rest =>
    simp only [splitSep]
    split
    · simp
    · split <;> simp

theorem splitSep_no_sep (sep : Char) (l : RStr) (h : sep ∉ l) : splitSep sep l = [l] := by
  induction l with
  | nil => rfl
  | cons c rest ih =>
    have hc : ¬(c = sep) := fun e => h (e ▸ List.mem_cons_self c rest)
    have hr : sep ∉ rest := fun m => h (List.mem_cons_of_mem _ m)
    simp [splitSep, hc, ih hr]

theorem splitSep_break (sep : Char) (a b : RStr) (h : sep ∉ a) :
    splitSep sep (a ++ sep :: b) = a :: splitSep sep b := by
  induction a with
  | nil => simp [splitSep]
  | cons c rest ih =>
    have hc : ¬(c = sep) := fun e => h (e ▸ List.mem_cons_self c rest)
    have hr : sep ∉ rest := fun m => h (List.mem_cons_of_mem _ m)
    simp [splitSep, hc, ih hr]

theorem splitSep_cons_sep (sep : Char) (t : RStr) :
    splitSep sep (sep :: t) = [] :: splitSep sep t := by
  simp [splitSep]

theorem mem_of_mem_splitSep (sep x : Char) :
    ∀ (l s : RStr), s ∈ splitSep sep l → x ∈ s → x ∈ l := by
  intro l
  induction l with
  | nil =>
    intro s hs hx
    simp [splitSep] at hs
    subst hs
    simp at hx
  | cons c rest ih =>
    intro s hs hx
    by_cases hc : c = sep
    · subst hc
      rw [splitSep_cons_sep] at hs
      rcases List.mem_cons.1 hs with h1 | h2
      · subst h1; simp at hx
      · exact List.mem_cons_of_mem _ (ih s h2 hx)
    · cases hsp : splitSep sep rest with
      | nil => exact absurd hsp (splitSep_ne_nil sep rest)
      | cons hd tl =>
        simp only [splitSep, if_neg hc, hsp] at hs
        rcases List.mem_cons.1 hs with h1 | h2
        · subst h1
          rcases List.mem_cons.1 hx with h3 | h4
          · exact h3 ▸ List.mem_cons_self c rest
          · exact List.mem_cons_of_mem _
              (ih hd (hsp ▸ List.mem_cons_self hd tl) h4)
        · exact List.mem_cons_of_mem _
            (ih s (hsp ▸ List.mem_cons_of_mem _ h2) hx)

theorem mem_of_mem_trimChars (s : RStr) (x : Char) (h : x ∈ trimChars s) : x ∈ s := by
  unfold trimChars at h
  rw [List.mem_reverse] at h
  have h1 : x ∈ (s.dropWhile Char.isWhitespace).reverse :=
    (List.dropWhile_sublist Char.isWhitespace).mem h
  rw [List.mem_reverse] at h1
  exact (List.dropWhile_sublist Char.isWhitespace).mem h1

theorem splitSep_flatten (f : RStr → RStr) (L : List RStr) (rest : RStr)
    (hf : ∀ s ∈ L, nlc ∉ f s) :
    splitSep nlc ((L.map (fun s => f s ++ [nlc])).flatten ++ rest) =
      L.map f ++ splitSep nlc rest := by
  induction L with
  | nil => simp
  | cons s L ih =>
    have h1 : nlc ∉ f s := hf s (List.mem_cons_self s L)
    have h2 : ∀ u ∈ L, nlc ∉ f u := fun u hu => hf u (List.mem_cons_of_mem _ hu)
    calc splitSep nlc (((s :: L).map (fun u => f u ++ [nlc])).flatten ++ rest)
        = splitSep nlc (f s ++ nlc :: ((L.map (fun u => f u ++ [nlc])).flatten ++ rest)) := by
          simp [List.append_assoc]
      _ = f s :: splitSep nlc ((L.map (fun u => f u ++ [nlc])).flatten ++ rest) :=
          splitSep_break nlc _ _ h1
      _ = (s :: L).map f ++ splitSep nlc rest := by rw [ih h2]; simp

theorem nlc_notin_textLine (fld : RStr) (s : RStr) (hs : s ∈ splitSep pipec fld)
    (h : nlc ∉ fld) : nlc ∉ str "  - " ++ trimChars s := by
  intro hm
  rcases List.mem_append.1 hm with h1 | h2
  · exact absurd h1 (by decide)
  · exact h (mem_of_mem_splitSep pipec nlc fld s hs (mem_of_mem_trimChars s nlc h2))

theorem nlc_notin_htmlLine (fld : RStr) (s : RStr) (hs : s ∈ splitSep pipec fld)
    (h : nlc ∉ fld) : nlc ∉ str "<li>" ++ trimChars s ++ str "</li>" := by
  intro hm
  rcases List.mem_append.1 hm with h1 | h4
  · rcases List.mem_append.1 h1 with h2 | h3
    · exact absurd h2 (by decide)
    · exact h (mem_of_mem_splitSep pipec nlc fld s hs (mem_of_mem_trimChars s nlc h3))
  · exact absurd h4 (by decide)

theorem splitSep_textBullets (fld rest : RStr) (h : nlc ∉ fld) :
    splitSep nlc (ErrorCode.textBullets fld ++ rest) =
      (splitSep pipec fld).map (fun s => str "  - " ++ trimChars s) ++ splitSep nlc rest := by
  have hb : ErrorCode.textBullet = fun s => (str "  - " ++ trimChars s) ++ [nlc] := by
    funext s
    simp [ErrorCode.textBullet, List.append_assoc]
  rw [ErrorCode.textBullets, hb]
  exact splitSep_flatten (fun s => str "  - " ++ trimChars s) (splitSep pipec fld) rest
    (fun s hs => nlc_notin_textLine fld s hs h)

theorem splitSep_htmlItems (fld rest : RStr) (h : nlc ∉ fld) :
    splitSep nlc (ErrorCode.htmlItems fld ++ rest) =
      (splitSep pipec fld).map (fun s => str "<li>" ++ trimChars s ++ str "</li>") ++
        splitSep nlc rest := by
  have hb : ErrorCode.htmlItem = fun s => (str "<li>" ++ trimChars s ++ str "</li>") ++ [nlc] := by
    funext s
    simp [ErrorCode.htmlItem, List.append_assoc]
  rw [ErrorCode.htmlItems, hb]
  exact splitSep_flatten (fun s => str "<li>" ++ trimChars s ++ str "</li>")
    (splitSep pipec fld) rest (fun s hs => nlc_notin_htmlLine fld s hs h)

/-! ### Lemmas about the index -/

theorem mem_insertRecord (m : DB) (r : ErrorCode) (k : RStr) (v : ErrorCode) :
    (k, v) ∈ insertRecord m r ↔ ((k, v) ∈ m ∧ k ≠ r.code) ∨ (k = r.code ∧ v = r) := by
  simp only [insertRecord, List.mem_append, List.mem_filter, List.mem_singleton,
    Prod.mk.injEq, decide_eq_true_eq]

theorem find?_key_filter_ne (m : DB) (rc c : RStr) (hc : ¬c = rc) :
    (m.filter (fun p => decide (p.1 ≠ rc))).find? (fun p => decide (p.1 = c)) =
      m.find? (fun p => decide (p.1 = c)) := by
  induction m with
  | nil => rfl
  | cons p m ih =>
    rw [List.filter_cons]
    by_cases h1 : p.1 = rc
    · have h2 : ¬(p.1 = c) := fun e => hc (e.symm.trans h1)
      rw [if_neg (by simp [h1]), ih, List.find?_cons_of_neg _ (by simp [h2])]
    · by_cases h2 : p.1 = c
      · rw [if_pos (by simp [h1]), List.find?_cons_of_pos _ (by simp [h2]),
          List.find?_cons_of_pos _ (by simp [h2])]
      · rw [if_pos (by simp [h1]), List.find?_cons_of_neg _ (by simp [h2]),
          List.find?_cons_of_neg _ (by simp [h2]), ih]

theorem lookup_insertRecord (m : DB) (r : ErrorCode) (c : RStr) :
    lookup_error (insertRecord m r) c = if c = r.code then some r else lookup_error m c := by
  by_cases hc : c = r.code
  · subst hc
    have hnone : (m.filter (fun p => decide (p.1 ≠ r.code))).find?
        (fun p => decide (p.1 = r.code)) = none := by
      rw [List.find?_eq_none]
      intro p hp
      have h2 := (List.mem_filter.1 hp).2
      simp only [decide_eq_true_eq] at h2 ⊢
      exact h2
    simp only [lookup_error, insertRecord, List.find?_append, hnone, Option.none_or]
    simp [List.find?]
  · have hrc : ¬(r.code = c) := fun h => hc h.symm
    have hone : (List.find? (fun p => decide (p.1 = c)) ([(r.code, r)] : DB)) = none := by
      simp [List.find?, hrc]
    simp only [lookup_error, insertRecord, List.find?_append,
      find?_key_filter_ne m r.code c hc, hone, Option.or_none, if_neg hc]

theorem findLastCode_cons (r : ErrorCode) (rs : List ErrorCode) (c : RStr) :
    findLastCode (r :: rs) c =
      (findLastCode rs c).or (if r.code = c then some r else none) := by
  unfold findLastCode
  rw [List.reverse_cons, List.find?_append]
  by_cases h : r.code = c
  · rw [if_pos h, List.find?_cons_of_pos _ (by simp [h])]
  · rw [if_neg h, List.find?_cons_of_neg _ (by simp [h]), List.find?_nil]

theorem code_of_findLastCode (rs : List ErrorCode) (c : RStr) (r : ErrorCode)
    (h : findLastCode rs c = some r) : r.code = c := by
  have := List.find?_some h
  simpa using this

theorem loadRecords_cons (m : DB) (r : ErrorCode) (rs : List ErrorCode) :
    loadRecords m (r :: rs) = loadRecords (insertRecord m r) rs := rfl

theorem lookup_loadRecords (rs : List ErrorCode) : ∀ (m : DB) (c : RStr),
    lookup_error (loadRecords m rs) c =
      match findLastCode rs c with
      | some r => some r
      | none => lookup_error m c := by
  induction rs with
  | nil =>
    intro m c
    rfl
  | cons r rs ih =>
    intro m c
    rw [loadRecords_cons, ih (insertRecord m r) c, findLastCode_cons,
      lookup_insertRecord]
    cases hfl : findLastCode rs c with
    | some rr => simp
    | none =>
      by_cases hr : r.code = c
      · rw [if_pos hr.symm]
        simp only [Option.none_or, if_pos hr]
      · rw [if_neg (fun e => hr e.symm)]
        simp only [Option.none_or, if_neg hr]

theorem mem_loadRecords (rs : List ErrorCode) : ∀ (m : DB) (k : RStr) (v : ErrorCode),
    (k, v) ∈ loadRecords m rs ↔
      match findLastCode rs k with
      | some r => v = r
      | none => (k, v) ∈ m := by
  induction rs with
  | nil =>
    intro m k v
    exact Iff.rfl
  | cons r rs ih =>
    intro m k v
    rw [loadRecords_cons, ih (insertRecord m r) k v, findLastCode_cons]
    cases hfl : findLastCode rs k with
    | some rr => simp
    | none =>
      by_cases hr : r.code = k
      · simp only [Option.none_or, if_pos hr, mem_insertRecord]
        constructor
        · rintro (⟨_, hk⟩ | ⟨_, hv⟩)
          · exact absurd hr.symm hk
          · exact hv
        · intro hv
          exact Or.inr ⟨hr.symm, hv⟩
      · simp only [Option.none_or, if_neg hr, mem_insertRecord]
        constructor
        · rintro (⟨hm, _⟩ | ⟨hk, _⟩)
          · exact hm
          · exact absurd hk.symm hr
        · intro hm
          exact Or.inl ⟨hm, fun e => hr e.symm⟩

theorem mem_dbValues (m : DB) (v : ErrorCode) : v ∈ dbValues m ↔ ∃ k, (k, v) ∈ m := by
  constructor
  · intro h
    rcases List.mem_map.1 h with ⟨⟨a, b⟩, hp, he⟩
    cases he
    exact ⟨a, hp⟩
  · rintro ⟨k, hk⟩
    exact List.mem_map.2 ⟨(k, v), hk, rfl⟩

theorem mem_values_loadRecords (rs : List ErrorCode) (v : ErrorCode) :
    v ∈ dbValues (loadRecords dbEmpty rs) ↔ findLastCode rs v.code = some v := by
  rw [mem_dbValues]
  constructor
  · rintro ⟨k, hk⟩
    rw [mem_loadRecords] at hk
    cases hfl : findLastCode rs k with
    | none => rw [hfl] at hk; simp [dbEmpty] at hk
    | some r =>
      rw [hfl] at hk
      subst hk
      rwa [code_of_findLastCode rs k v hfl]
  · intro h
    exact ⟨v.code, by rw [mem_loadRecords, h]⟩

/-! ### Lemmas about the load loop -/

theorem loadLoop_ok (hdr : List RStr) : ∀ (rows : List (List RStr)) (m : DB)
    (recs : List ErrorCode), deserializeRows hdr rows = Except.ok recs →
    loadLoop m hdr rows = (Except.ok (), loadRecords m recs) := by
  intro rows
  induction rows with
  | nil =>
    intro m recs h
    simp only [deserializeRows, Except.ok.injEq] at h
    subst h
    rfl
  | cons row rest ih =>
    intro m recs h
    simp only [deserializeRows] at h
    cases hrow : deserializeRow hdr row with
    | error e => rw [hrow] at h; exact absurd h (by simp)
    | ok r =>
      rw [hrow] at h
      cases hrest : deserializeRows hdr rest with
      | error e => rw [hrest] at h; exact absurd h (by simp)
      | ok rs =>
        rw [hrest] at h
        simp only [Except.ok.injEq] at h
        subst h
        simp only [loadLoop, hrow]
        rw [ih (insertRecord m r) rs hrest]
        rfl

theorem loadLoop_error (hdr : List RStr) (bad : List RStr) (rest : List (List RStr))
    (hbad : deserializeRow hdr bad = Except.error ()) :
    ∀ (good : List (List RStr)) (m : DB) (recs : List ErrorCode),
    deserializeRows hdr good = Except.ok recs →
    loadLoop m hdr (good ++ bad :: rest) = (Except.error (), loadRecords m recs) := by
  intro good
  induction good with
  | nil =>
    intro m recs h
    simp only [deserializeRows, Except.ok.injEq] at h
    subst h
    simp [loadLoop, hbad, loadRecords]
  | cons row grest ih =>
    intro m recs h
    simp only [deserializeRows] at h
    cases hrow : deserializeRow hdr row with
    | error e => rw [hrow] at h; exact absurd h (by simp)
    | ok r =>
      rw [hrow] at h
      cases hrest : deserializeRows hdr grest with
      | error e => rw [hrest] at h; exact absurd h (by simp)
      | ok rs =>
        rw [hrest] at h
        simp only [Except.ok.injEq] at h
        subst h
        simp only [List.cons_append, loadLoop, hrow]
        exact ih (insertRecord m r) rs hrest

/-! ### Claim theorems -/

/-- C6: for every loaded index, search with the empty string as keyword
returns every loaded record (the empty string is a substring of every field,
so the match predicate holds for all records). -/
theorem claim_C6_empty_keyword_total (m : DB) :
    search_by_keyword m (str "") = dbValues m := by
  have h : ∀ e : ErrorCode,
      (occursIn (lowerStr (str "")) (lowerStr e.description) ||
       occursIn (lowerStr (str "")) (lowerStr e.possible_causes) ||
       occursIn (lowerStr (str "")) (lowerStr e.recommended_actions)) = true := by
    intro e
    have h0 : lowerStr (str "") = [] := rfl
    rw [h0, occursIn_nil, occursIn_nil, occursIn_nil]
    rfl
  unfold search_by_keyword
  exact List.filter_eq_self.2 (fun a _ => h a)

/-- C9: for every record, the text rendering contains the record's `code`,
`description`, `severity` and `system` field values verbatim as substrings. -/
theorem claim_C9_text_roundtrip (r : ErrorCode) :
    occursIn r.code (ErrorCode.to_text r) = true ∧
    occursIn r.description (ErrorCode.to_text r) = true ∧
    occursIn r.severity (ErrorCode.to_text r) = true ∧
    occursIn r.system (ErrorCode.to_text r) = true := by
  refine ⟨?_, ?_, ?_, ?_⟩ <;>
  · unfold ErrorCode.to_text
    repeat
      first
      | exact occursIn_append_left _ _ _ (occursIn_self _)
      | apply occursIn_append_right

/-- C3: for every loaded index and keyword, search returns a record iff the
lowercased keyword occurs as a substring of the lowercased `description`, raw
`possible_causes` or raw `recommended_actions`; in particular the spec's
example record is matched by "seal|low" (a keyword spanning a `|` boundary of
the raw string) and by "TURBO", is not matched by "zzz", and a record where
"p9" occurs only in `code` and `system` is not returned. -/
theorem claim_C3_search_membership :
    (∀ (m : DB) (kw : RStr) (r : ErrorCode),
      r ∈ search_by_keyword m kw ↔
        r ∈ dbValues m ∧
          (occursIn (lowerStr kw) (lowerStr r.description) = true ∨
           occursIn (lowerStr kw) (lowerStr r.possible_causes) = true ∨
           occursIn (lowerStr kw) (lowerStr r.recommended_actions) = true)) ∧
    recTurbo ∈ search_by_keyword dbTurbo (str "seal|low") ∧
    recTurbo ∈ search_by_keyword dbTurbo (str "TURBO") ∧
    recTurbo ∉ search_by_keyword dbTurbo (str "zzz") ∧
    recOnly ∉ search_by_keyword dbOnly (str "p9") := by
  refine ⟨?_, by decide, by decide, by decide, by decide⟩
  intro m kw r
  unfold search_by_keyword
  rw [List.mem_filter]
  simp only [Bool.or_eq_true, or_assoc]

/-- C4: list_by_system returns exactly the records whose `system` equals the
argument after lowercasing both sides, list_by_severity does the same on
`severity`, and when nothing matches the result is the empty list, not an
error. -/
theorem claim_C4_case_insensitive_filters :
    (∀ (m : DB) (s : RStr) (r : ErrorCode),
      r ∈ list_errors_by_system m s ↔
        r ∈ dbValues m ∧ lowerStr r.system = lowerStr s) ∧
    (∀ (m : DB) (s : RStr) (r : ErrorCode),
      r ∈ list_errors_by_severity m s ↔
        r ∈ dbValues m ∧ lowerStr r.severity = lowerStr s) ∧
    (∀ (m : DB) (s : RStr), (∀ r ∈ dbValues m, ¬lowerStr r.system = lowerStr s) →
      list_errors_by_system m s = []) ∧
    (∀ (m : DB) (s : RStr), (∀ r ∈ dbValues m, ¬lowerStr r.severity = lowerStr s) →
      list_errors_by_severity m s = []) := by
  refine ⟨?_, ?_, ?_, ?_⟩
  · intro m s r
    unfold list_errors_by_system
    rw [List.mem_filter]
    simp only [decide_eq_true_eq]
  · intro m s r
    unfold list_errors_by_severity
    rw [List.mem_filter]
    simp only [decide_eq_true_eq]
  · intro m s h
    unfold list_errors_by_system
    rw [List.filter_eq_nil_iff]
    intro a ha
    simpa using h a ha
  · intro m s h
    unfold list_errors_by_severity
    rw [List.filter_eq_nil_iff]
    intro a ha
    simpa using h a ha

/-- C4 witness: the spec's case-insensitivity example, "ENGINE" matching a
record whose system is "Engine", obtained from the filter characterization. -/
theorem claim_C4_witness :
    recTurbo ∈ list_errors_by_system dbTurbo (str "ENGINE") :=
  (claim_C4_case_insensitive_filters.1 dbTurbo (str "ENGINE") recTurbo).2
    ⟨by decide, by decide⟩

/-- C8: lookup returns the record stored under exactly the queried code key
(or nothing when no entry has that key), and the comparison is case-sensitive:
an index holding code "P0101" answers nothing for "p0101". -/
theorem claim_C8_lookup_exact :
    (∀ (m : DB) (c : RStr) (r : ErrorCode), lookup_error m c = some r → (c, r) ∈ m) ∧
    (∀ (m : DB) (c : RStr), lookup_error m c = none ↔ ∀ r : ErrorCode, (c, r) ∉ m) ∧
    lookup_error dbP0101 (str "p0101") = none ∧
    lookup_error dbP0101 (str "P0101") = some recP0101 := by
  refine ⟨?_, ?_, by decide, by decide⟩
  · intro m c r h
    unfold lookup_error at h
    cases hf : m.find? (fun p => decide (p.1 = c)) with
    | none => rw [hf] at h; exact absurd h (by simp)
    | some p =>
      rw [hf] at h
      have hr : p.2 = r := by simpa using h
      have hm := List.mem_of_find?_eq_some hf
      have hp := List.find?_some hf
      simp only [decide_eq_true_eq] at hp
      rw [← hr, ← hp]
      simpa using hm
  · intro m c
    unfold lookup_error
    rw [Option.map_eq_none', List.find?_eq_none]
    constructor
    · intro h r hr
      exact (h (c, r) hr) (by simp)
    · intro h p hp
      simp only [decide_eq_true_eq]
      intro he
      exact h p.2 (by rw [← he]; simpa using hp)

/-- C8 witness: from the exactness part, the record answered for "P0101" is
stored under exactly that key. -/
theorem claim_C8_witness :
    (str "P0101", recP0101) ∈ dbP0101 :=
  claim_C8_lookup_exact.1 dbP0101 (str "P0101") recP0101 (by decide)

/-- C10: in every index state reachable by loading rows, every stored key
equals the `code` field of its record; consequently a successful lookup
returns a record whose `code` is the queried string; and the invariant is
preserved by every insertion. -/
theorem claim_C10_key_consistency :
    (∀ (rs : List ErrorCode) (k : RStr) (v : ErrorCode),
      (k, v) ∈ loadRecords dbEmpty rs → k = v.code) ∧
    (∀ (rs : List ErrorCode) (c : RStr) (r : ErrorCode),
      lookup_error (loadRecords dbEmpty rs) c = some r → r.code = c) ∧
    (∀ (m : DB) (r : ErrorCode), (∀ k v, (k, v) ∈ m → k = v.code) →
      ∀ k v, (k, v) ∈ insertRecord m r → k = v.code) := by
  refine ⟨?_, ?_, ?_⟩
  · intro rs k v h
    rw [mem_loadRecords] at h
    cases hfl : findLastCode rs k with
    | none =>
      rw [hfl] at h
      exact absurd h (by simp [dbEmpty])
    | some rr =>
      rw [hfl] at h
      rw [h]
      exact (code_of_findLastCode rs k rr hfl).symm
  · intro rs c r h
    rw [lookup_loadRecords] at h
    cases hfl : findLastCode rs c with
    | none =>
      rw [hfl] at h
      exact absurd h (by simp [dbEmpty, lookup_error])
    | some rr =>
      rw [hfl] at h
      simp only [Option.some.injEq] at h
      subst h
      exact code_of_findLastCode rs c rr hfl
  · intro m r h k v hm
    rcases (mem_insertRecord m r k v).1 hm with ⟨h1, _⟩ | ⟨h1, h2⟩
    · exact h k v h1
    · rw [h2]; exact h1

/-- C10 witness: applying the lookup part at a concrete one-record index. -/
theorem claim_C10_witness :
    recP0101.code = str "P0101" :=
  claim_C10_key_consistency.2.1 [recP0101] (str "P0101") recP0101 (by decide)

/-- C2: for a source whose rows with a given code are exactly `r1` then `r2`
(same code, different other fields), after load the lookup of that code
returns the later record `r2`, and the earlier record `r1` is not retrievable
by lookup, the two filters, or keyword search. -/
theorem claim_C2_last_write_wins (recs : List ErrorCode) (r1 r2 : ErrorCode)
    (hfilter : recs.filter (fun r => decide (r.code = r1.code)) = [r1, r2])
    (hne : r1 ≠ r2) :
    lookup_error (loadRecords dbEmpty recs) r1.code = some r2 ∧
    (∀ c, lookup_error (loadRecords dbEmpty recs) c ≠ some r1) ∧
    (∀ s, r1 ∉ list_errors_by_system (loadRecords dbEmpty recs) s) ∧
    (∀ s, r1 ∉ list_errors_by_severity (loadRecords dbEmpty recs) s) ∧
    (∀ k, r1 ∉ search_by_keyword (loadRecords dbEmpty recs) k) := by
  have hlast : findLastCode recs r1.code = some r2 := by
    unfold findLastCode
    rw [← List.filter_getLast?, hfilter]
    rfl
  have hnotin : r1 ∉ dbValues (loadRecords dbEmpty recs) := by
    intro hmem
    have h2 := (mem_values_loadRecords recs r1).1 hmem
    rw [hlast] at h2
    injection h2 with h3
    exact hne h3.symm
  refine ⟨?_, ?_, ?_, ?_, ?_⟩
  · rw [lookup_loadRecords, hlast]
  · intro c hc
    rw [lookup_loadRecords] at hc
    cases hfl : findLastCode recs c with
    | none =>
      rw [hfl] at hc
      exact absurd hc (by simp [dbEmpty, lookup_error])
    | some rr =>
      rw [hfl] at hc
      simp only [Option.some.injEq] at hc
      rw [hc] at hfl
      have hcode := code_of_findLastCode recs c r1 hfl
      rw [← hcode] at hfl
      have h4 := hlast.symm.trans hfl
      injection h4 with h5
      exact hne h5.symm
  · intro s hmem
    unfold list_errors_by_system at hmem
    exact hnotin (List.mem_filter.1 hmem).1
  · intro s hmem
    unfold list_errors_by_severity at hmem
    exact hnotin (List.mem_filter.1 hmem).1
  · intro k hmem
    unfold search_by_keyword at hmem
    exact hnotin (List.mem_filter.1 hmem).1

/-- C2 witness: two concrete records sharing code "P0300"; after load, lookup
answers the later one. -/
theorem claim_C2_witness :
    (recsDup.filter (fun r => decide (r.code = recDupA.code)) = [recDupA, recDupB]) ∧
    recDupA ≠ recDupB ∧
    lookup_error (loadRecords dbEmpty recsDup) recDupA.code = some recDupB :=
  ⟨by decide, by decide,
    (claim_C2_last_write_wins recsDup recDupA recDupB (by decide) (by decide)).1⟩

/-- C1 counterexample: a source with one well-formed row followed by a row
missing required columns makes the load fail, yet the record from the row
preceding the bad one remains retrievable from the index afterwards — the
state is not unchanged and the index is not empty. -/
theorem claim_C1_counterexample :
    (load_from_csv dbEmpty hdr6 [rowGood, rowBad]).res = Except.error () ∧
    lookup_error (load_from_csv dbEmpty hdr6 [rowGood, rowBad]).db (str "P0001") =
      some recGood :=
  ⟨rfl, by decide⟩

/-- C1 as amended: on the first bad row the load returns an error, processes
no later rows and prints nothing, but the insertions already made for the
rows preceding the bad one remain in the index. -/
theorem claim_C1_partial_load (m : DB) (hdr : List RStr) (good : List (List RStr))
    (bad : List RStr) (rest : List (List RStr)) (recs : List ErrorCode)
    (hgood : deserializeRows hdr good = Except.ok recs)
    (hbad : deserializeRow hdr bad = Except.error ()) :
    (load_from_csv m hdr (good ++ bad :: rest)).res = Except.error () ∧
    (load_from_csv m hdr (good ++ bad :: rest)).db = loadRecords m recs ∧
    (load_from_csv m hdr (good ++ bad :: rest)).printed = [] := by
  have h := loadLoop_error hdr bad rest hbad good m recs hgood
  unfold load_from_csv
  rw [h]
  exact ⟨rfl, rfl, rfl⟩

/-- C1 witness: the amended statement applied to the concrete failing source. -/
theorem claim_C1_witness :
    deserializeRows hdr6 [rowGood] = Except.ok [recGood] ∧
    deserializeRow hdr6 rowBad = Except.error () ∧
    ((load_from_csv dbEmpty hdr6 ([rowGood] ++ rowBad :: [])).res = Except.error () ∧
     (load_from_csv dbEmpty hdr6 ([rowGood] ++ rowBad :: [])).db =
       loadRecords dbEmpty [recGood] ∧
     (load_from_csv dbEmpty hdr6 ([rowGood] ++ rowBad :: [])).printed = []) :=
  ⟨rfl, rfl,
    claim_C1_partial_load dbEmpty hdr6 [rowGood] rowBad [] [recGood] rfl rfl⟩

/-- C5 counterexample: for a concrete source that loads successfully, the
success value returned to the caller is the unit value, and the count appears
only in the printed side effect — not in the returned Result. -/
theorem claim_C5_counterexample :
    (load_from_csv dbEmpty hdr6 [rowGood, rowGood2]).res = Except.ok () ∧
    (load_from_csv dbEmpty hdr6 [rowGood, rowGood2]).printed = [loadedMsg 2] :=
  ⟨rfl, by decide⟩

/-- C5 as amended: on success the load returns unit in its Result; the count
it reports — as a printed side effect, not a return value — is the size of
the index after the load. -/
theorem claim_C5_load_returns_unit (m : DB) (hdr : List RStr)
    (rows : List (List RStr)) (recs : List ErrorCode)
    (h : deserializeRows hdr rows = Except.ok recs) :
    load_from_csv m hdr rows =
      ⟨Except.ok (), loadRecords m recs,
        [loadedMsg (loadRecords m recs).length]⟩ := by
  unfold load_from_csv
  rw [loadLoop_ok hdr rows m recs h]

/-- C5 witness: the amended statement applied to a concrete two-row source. -/
theorem claim_C5_witness :
    deserializeRows hdr6 [rowGood, rowGood2] = Except.ok [recGood, recGood2] ∧
    load_from_csv dbEmpty hdr6 [rowGood, rowGood2] =
      ⟨Except.ok (), loadRecords dbEmpty [recGood, recGood2],
        [loadedMsg (loadRecords dbEmpty [recGood, recGood2]).length]⟩ :=
  ⟨rfl,
    claim_C5_load_returns_unit dbEmpty hdr6 [rowGood, rowGood2] [recGood, recGood2] rfl⟩

theorem splitSep_nil_eq (sep : Char) : splitSep sep [] = [[]] := rfl

/-- C7: for every record whose fields contain no newline, the lines of the
text rendering are the four header lines followed by one bulleted line per
`|`-segment of `possible_causes` (trimmed, in order), then the actions header
and one bulleted line per `|`-segment of `recommended_actions`; the lines of
the HTML rendering likewise contain one `<li>` item per segment. Empty
segments are rendered as blank bullets/items, not filtered. -/
theorem claim_C7_delimiter_rendering (r : ErrorCode)
    (h1 : nlc ∉ r.code) (h2 : nlc ∉ r.description) (h3 : nlc ∉ r.severity)
    (h4 : nlc ∉ r.system) (h5 : nlc ∉ r.possible_causes)
    (h6 : nlc ∉ r.recommended_actions) :
    splitSep nlc (ErrorCode.to_text r) =
      [str "Error Code: " ++ r.code,
       str "Description: " ++ r.description,
       str "Severity: " ++ r.severity,
       str "System: " ++ r.system,
       [],
       str "Possible Causes:"] ++
      (splitSep pipec r.possible_causes).map (fun s => str "  - " ++ trimChars s) ++
      [[], str "Recommended Actions:"] ++
      (splitSep pipec r.recommended_actions).map (fun s => str "  - " ++ trimChars s) ++
      [[]] ∧
    splitSep nlc (ErrorCode.to_html r) =
      [str "<div class=" ++ [apos] ++ str "error-code" ++ [apos] ++ str ">",
       str "<h2>Error Code: " ++ r.code ++ str "</h2>",
       str "<p><strong>Description:</strong> " ++ r.description ++ str "</p>",
       str "<p><strong>Severity:</strong> " ++ r.severity ++ str "</p>",
       str "<p><strong>System:</strong> " ++ r.system ++ str "</p>",
       str "<h3>Possible Causes:</h3>",
       str "<ul>"] ++
      (splitSep pipec r.possible_causes).map
        (fun s => str "<li>" ++ trimChars s ++ str "</li>") ++
      [str "</ul>", str "<h3>Recommended Actions:</h3>", str "<ul>"] ++
      (splitSep pipec r.recommended_actions).map
        (fun s => str "<li>" ++ trimChars s ++ str "</li>") ++
      [str "</ul>", str "</div>", []] := by
  constructor
  · have e : ErrorCode.to_text r =
        (str "Error Code: " ++ r.code) ++ nlc ::
        ((str "Description: " ++ r.description) ++ nlc ::
        ((str "Severity: " ++ r.severity) ++ nlc ::
        ((str "System: " ++ r.system) ++ nlc ::
        (nlc ::
        (str "Possible Causes:" ++ nlc ::
        (ErrorCode.textBullets r.possible_causes ++
        (nlc ::
        (str "Recommended Actions:" ++ nlc ::
        (ErrorCode.textBullets r.recommended_actions ++ ([] : RStr)))))))))) := by
      simp [ErrorCode.to_text, List.append_assoc]
    rw [e,
      splitSep_break nlc (str "Error Code: " ++ r.code) _
        (List.not_mem_append (by decide) h1),
      splitSep_break nlc (str "Description: " ++ r.description) _
        (List.not_mem_append (by decide) h2),
      splitSep_break nlc (str "Severity: " ++ r.severity) _
        (List.not_mem_append (by decide) h3),
      splitSep_break nlc (str "System: " ++ r.system) _
        (List.not_mem_append (by decide) h4),
      splitSep_cons_sep,
      splitSep_break nlc (str "Possible Causes:") _ (by decide),
      splitSep_textBullets r.possible_causes _ h5,
      splitSep_cons_sep,
      splitSep_break nlc (str "Recommended Actions:") _ (by decide),
      splitSep_textBullets r.recommended_actions _ h6,
      splitSep_nil_eq]
    simp [List.append_assoc]
  · have e : ErrorCode.to_html r =
        (str "<div class=" ++ [apos] ++ str "error-code" ++ [apos] ++ str ">") ++ nlc ::
        ((str "<h2>Error Code: " ++ r.code ++ str "</h2>") ++ nlc ::
        ((str "<p><strong>Description:</strong> " ++ r.description ++ str "</p>") ++ nlc ::
        ((str "<p><strong>Severity:</strong> " ++ r.severity ++ str "</p>") ++ nlc ::
        ((str "<p><strong>System:</strong> " ++ r.system ++ str "</p>") ++ nlc ::
        (str "<h3>Possible Causes:</h3>" ++ nlc ::
        (str "<ul>" ++ nlc ::
        (ErrorCode.htmlItems r.possible_causes ++
        (str "</ul>" ++ nlc ::
        (str "<h3>Recommended Actions:</h3>" ++ nlc ::
        (str "<ul>" ++ nlc ::
        (ErrorCode.htmlItems r.recommended_actions ++
        (str "</ul>" ++ nlc ::
        (str "</div>" ++ nlc :: ([] : RStr)))))))))))))) := by
      simp [ErrorCode.to_html, List.append_assoc]
    rw [e,
      splitSep_break nlc
        (str "<div class=" ++ [apos] ++ str "error-code" ++ [apos] ++ str ">") _
        (by decide),
      splitSep_break nlc (str "<h2>Error Code: " ++ r.code ++ str "</h2>") _
        (List.not_mem_append (List.not_mem_append (by decide) h1) (by decide)),
      splitSep_break nlc
        (str "<p><strong>Description:</strong> " ++ r.description ++ str "</p>") _
        (List.not_mem_append (List.not_mem_append (by decide) h2) (by decide)),
      splitSep_break nlc
        (str "<p><strong>Severity:</strong> " ++ r.severity ++ str "</p>") _
        (List.not_mem_append (List.not_mem_append (by decide) h3) (by decide)),
      splitSep_break nlc
        (str "<p><strong>System:</strong> " ++ r.system ++ str "</p>") _
        (List.not_mem_append (List.not_mem_append (by decide) h4) (by decide)),
      splitSep_break nlc (str "<h3>Possible Causes:</h3>") _ (by decide),
      splitSep_break nlc (str "<ul>") _ (by decide),
      splitSep_htmlItems r.possible_causes _ h5,
      splitSep_break nlc (str "</ul>") _ (by decide),
      splitSep_break nlc (str "<h3>Recommended Actions:</h3>") _ (by decide),
      splitSep_break nlc (str "<ul>") _ (by decide),
      splitSep_htmlItems r.recommended_actions _ h6,
      splitSep_break nlc (str "</ul>") _ (by decide),
      splitSep_break nlc (str "</div>") _ (by decide),
      splitSep_nil_eq]
    simp [List.append_assoc]

/-- C7 witness: the rendering characterization applied to a concrete record
with `possible_causes = "a|b|c"` and a trailing delimiter in the actions. -/
theorem claim_C7_witness :
    (nlc ∉ rEx.code ∧ nlc ∉ rEx.description ∧ nlc ∉ rEx.severity ∧
     nlc ∉ rEx.system ∧ nlc ∉ rEx.possible_causes ∧
     nlc ∉ rEx.recommended_actions) ∧
    (splitSep nlc (ErrorCode.to_text rEx) =
      [str "Error Code: " ++ rEx.code,
       str "Description: " ++ rEx.description,
       str "Severity: " ++ rEx.severity,
       str "System: " ++ rEx.system,
       [],
       str "Possible Causes:"] ++
      (splitSep pipec rEx.possible_causes).map (fun s => str "  - " ++ trimChars s) ++
      [[], str "Recommended Actions:"] ++
      (splitSep pipec rEx.recommended_actions).map (fun s => str "  - " ++ trimChars s) ++
      [[]] ∧
    splitSep nlc (ErrorCode.to_html rEx) =
      [str "<div class=" ++ [apos] ++ str "error-code" ++ [apos] ++ str ">",
       str "<h2>Error Code: " ++ rEx.code ++ str "</h2>",
       str "<p><strong>Description:</strong> " ++ rEx.description ++ str "</p>",
       str "<p><strong>Severity:</strong> " ++ rEx.severity ++ str "</p>",
       str "<p><strong>System:</strong> " ++ rEx.system ++ str "</p>",
       str "<h3>Possible Causes:</h3>",
       str "<ul>"] ++
      (splitSep pipec rEx.possible_causes).map
        (fun s => str "<li>" ++ trimChars s ++ str "</li>") ++
      [str "</ul>", str "<h3>Recommended Actions:</h3>", str "<ul>"] ++
      (splitSep pipec rEx.recommended_actions).map
        (fun s => str "<li>" ++ trimChars s ++ str "</li>") ++
      [str "</ul>", str "</div>", []]) :=
  ⟨⟨by decide, by decide, by decide, by decide, by decide, by decide⟩,
    claim_C7_delimiter_rendering rEx (by decide) (by decide) (by decide) (by decide)
      (by decide) (by decide)⟩

end CarsScanner
